import Mathlib

/-! Verification development for the roadmap_datamanager repository.

Shallow embedding of the core modules (datamanager.py, metadata.py,
helpers.py): Python dictionaries become association lists, filesystem
paths become lists of segments, the DataLad storage engine becomes an
abstract state, and raised exceptions become explicit error values.
All definitions are translated from the source files; definitions whose
doc comment says so follow the specification text instead, for
comparison with the source. -/

deriving instance DecidableEq for Except

namespace DM

/-- A filesystem path, as the list of its segments. -/
abbrev PathL := List String

/-- A Python `dict` with string keys, as an association list. -/
abbrev Dict (α : Type) := List (String × α)

/-- Lookup in a `Dict` (first matching key wins; Python dicts have unique keys). -/
def dlookup {α : Type} : Dict α → String → Option α
  | [], _ => none
  | (k', v) :: rest, k => if k' = k then some v else dlookup rest k

/-- Lookup in an association list keyed by paths. -/
def plookup {α : Type} : List (PathL × α) → PathL → Option α
  | [], _ => none
  | (k', v) :: rest, k => if k' = k then some v else plookup rest k

/-- The first option when present, else the second. -/
def oor {α : Type} : Option α → Option α → Option α
  | some v, _ => some v
  | none, b => b

/-- Python `d1.update(d2)`: keys of `d1` keep their position, with values
replaced by the values of `d2` on collision; keys present only in `d2`
are appended in their order. -/
def dupdate {α : Type} (d1 d2 : Dict α) : Dict α :=
  d1.map (fun kv => (kv.1, (dlookup d2 kv.1).getD kv.2))
    ++ d2.filter (fun kv => (dlookup d1 kv.1).isNone)

/-- Python `d[k] = v`. -/
def dset {α : Type} (d : Dict α) (k : String) (v : α) : Dict α := dupdate d [(k, v)]

/-- The list of keys of a `Dict`. -/
def dkeys {α : Type} (d : Dict α) : List String := d.map Prod.fst

/-! ## metadata.py: the `Metadata` class -/

/-- Python exceptions raised by the embedded code. -/
inductive PyErr where
  | typeError
  | valueError
  | fileNotFoundError
  | fileExistsError
  | runtimeError
  | indexError
deriving DecidableEq, Repr

/-- A JSON value inside an `extracted_metadata` dictionary: either one of
the strings the code itself writes, the fixed "@context" object literal,
or an arbitrary caller-supplied value of type `v`. -/
inductive EVal (v : Type) where
  | s : String → EVal v
  | ctxObj : EVal v
  | user : v → EVal v
deriving DecidableEq

/-- The facts `Metadata.add` reads from the constructed `Metadata` object
and its dataset: the POSIX-normalized relative path key, whether the
absolute path exists and is a directory, and the engine-issued dataset
id/version, plus the write timestamp. -/
structure MetaCtx where
  relposix : String
  absExists : Bool
  absIsDir : Bool
  dataset_id : String
  dataset_version : String
  extraction_time : String
deriving DecidableEq, Repr

/-- Python `str(x)` of an optional string (`None` renders as "None"),
as used inside the f-strings building the node id. -/
def pyStr (o : Option String) : String := o.getD "None"

/-- Python truthiness of an optional string (`None` and "" are falsy). -/
def truthy : Option String → Bool
  | none => false
  | some s => s ≠ ""

/-- The Schema.org type chosen in `Metadata.add` (metadata.py lines 52-58). -/
def typeStr (ctx : MetaCtx) : String :=
  if ctx.relposix = "." then "Dataset"
  else if ctx.absExists && ctx.absIsDir then "Collection"
  else "CreativeWork"

/-- The node id built in `Metadata.add` (metadata.py lines 60-66). -/
def nodeId (ctx : MetaCtx) (node_type : Option String) : String :=
  if ctx.relposix ≠ "." then
    "datalad:" ++ pyStr node_type ++ ctx.dataset_id ++ ":" ++ ctx.relposix
  else
    "datalad:" ++ pyStr node_type ++ ctx.dataset_id

/-- The `extracted` dictionary before the payload is merged in
(metadata.py lines 70-81): "@context", "@type", "@id", "identifier",
and "name" when a truthy name was supplied. -/
def extractedBase (v : Type) (ctx : MetaCtx) (node_type name : Option String) :
    Dict (EVal v) :=
  let base : Dict (EVal v) :=
    [("@context", EVal.ctxObj),
     ("@type", EVal.s (typeStr ctx)),
     ("@id", EVal.s (nodeId ctx node_type)),
     ("identifier", EVal.s ctx.relposix)]
  if truthy name then dset base "name" (EVal.s (name.getD "")) else base

/-- The full `extracted` dictionary of `Metadata.add` (metadata.py
lines 70-84): the base fields, updated with the payload when the payload
is truthy (a `None` or empty payload is modelled as `[]`). -/
def buildExtracted {v : Type} (ctx : MetaCtx) (node_type name : Option String)
    (payload : Dict (EVal v)) : Dict (EVal v) :=
  if payload.isEmpty then extractedBase v ctx node_type name
  else dupdate (extractedBase v ctx node_type name) payload

/-- The envelope record built by `Metadata.add` (metadata.py lines 89-104). -/
structure MDRecord (v : Type) where
  rtype : String
  extractor_name : Option String
  extractor_version : Option String
  extraction_param_path : String
  extraction_param_node_type : Option String
  extraction_time : String
  agent_name : Option String
  agent_email : Option String
  dataset_id : String
  dataset_version : String
  rpath : String
  extracted_metadata : Dict (EVal v)
deriving DecidableEq

/-- Build the envelope record of `Metadata.add` (metadata.py lines 48-104). -/
def buildRecord {v : Type} (ctx : MetaCtx) (payload : Dict (EVal v))
    (user_name user_email extractor_name extractor_version node_type name :
      Option String) : MDRecord v :=
  { rtype := if ctx.relposix ≠ "." then "file" else "dataset"
    extractor_name := extractor_name
    extractor_version := extractor_version
    extraction_param_path := ctx.relposix
    extraction_param_node_type := node_type
    extraction_time := ctx.extraction_time
    agent_name := user_name
    agent_email := user_email
    dataset_id := ctx.dataset_id
    dataset_version := ctx.dataset_version
    rpath := ctx.relposix
    extracted_metadata := buildExtracted ctx node_type name payload }

/-- The per-container metadata document `self.meta`: relative-path key to
stored record.  The value is `Option` because the buggy merge branch
stores Python `None` under the key (see `metaAdd`). -/
abbrev MetaDoc (v : Type) := Dict (Option (MDRecord v))

/-- The storage branch of `Metadata.add` (metadata.py lines 106-113),
given the already-built `record`.  Returns the raised exception, if any,
together with the state of `self.meta` afterwards (the dictionary is
mutated before the merge branch raises).

The merge branch is translated statement by statement:
line 110 `new_em = self.meta[k]["extracted_metadata"].update(...)` updates
the stored sub-dictionary in place but binds `new_em` to Python `None`
(the return value of `dict.update`); line 112
`self.meta[k] = self.meta[k].update(record)` rebinds the key to `None`;
line 113 `self.meta[k]["extracted_metadata"] = new_em` subscripts `None`
and raises `TypeError`.  When the stored value is already `None` (from an
earlier failed merge), line 110 itself subscripts `None` and raises
`TypeError` with no mutation. -/
def metaAdd {v : Type} (meta : MetaDoc v) (path_key : String)
    (record : MDRecord v) (mode : String) : Option PyErr × MetaDoc v :=
  if mode = "overwrite" ∨ (dlookup meta path_key).isNone then
    (none, dset meta path_key (some record))
  else if mode = "merge" then
    match dlookup meta path_key with
    | some (some _) => (some PyErr.typeError, dset meta path_key none)
    | _ => (some PyErr.typeError, meta)
  else
    (none, meta)

/-- Model of `Metadata.add` (metadata.py lines 33-113): build the record for the
key `ctx.relposix` and store it according to `mode`. -/
def metadataAdd {v : Type} (meta : MetaDoc v) (ctx : MetaCtx)
    (payload : Dict (EVal v)) (mode : String)
    (user_name user_email extractor_name extractor_version node_type name :
      Option String) : Option PyErr × MetaDoc v :=
  metaAdd meta ctx.relposix
    (buildRecord ctx payload user_name user_email extractor_name
      extractor_version node_type name) mode

/-- Model of `Metadata.get` with meta mode (metadata.py lines 115-126):
`self.meta.get(self.path_key, {})` followed by
`meta.get("extracted_metadata", {})`.  The result is `none` when the
stored value is Python `None` (subscripting it raises AttributeError),
`some []` when the key is absent, and the stored `extracted_metadata`
dictionary otherwise. -/
def metaGetMeta {v : Type} (meta : MetaDoc v) (path_key : String) :
    Option (Dict (EVal v)) :=
  match dlookup meta path_key with
  | some (some r) => some r.extracted_metadata
  | some none => none
  | none => some []

/-! ## datamanager.py: the `DataManager` class

The DataLad storage engine is abstracted into a `DMState` recording which
datasets are installed, which subdataset registrations exist, which plain
directories and files exist, and the content of each container metadata
document.  Engine-issued identifiers and timestamps come from a `DMEnv`
oracle. -/

/-- datamanager.py lines 22-25. -/
def ALLOWED_CATEGORIES : List String :=
  ["raw", "reduced", "measurement", "analysis",
   "template", "experimental_optimization", "model"]

/-- The configuration fields of `DataManagerConfig` that the embedded
operations read. -/
structure DMCfg where
  dm_root : PathL
  user_name : String
  user_email : String
  extractor_name : String
  extractor_version : String
deriving DecidableEq, Repr

/-- Oracle for values issued by the storage engine (dataset ids and
versions) and for the write timestamp. -/
structure DMEnv where
  datasetId : PathL → String
  datasetVersion : PathL → String
  now : String

/-- The observable state of the managed tree. -/
structure DMState (v : Type) where
  installed : List PathL
  registered : List (PathL × PathL)
  dirs : List PathL
  files : List PathL
  metaDocs : List (PathL × MetaDoc v)
deriving DecidableEq

/-- Python `Dataset(path).is_installed()`. -/
def isInstalled {v : Type} (st : DMState v) (p : PathL) : Bool :=
  st.installed.contains p

/-- Python `path.exists()`: a directory or file entry is present. -/
def fsExists {v : Type} (st : DMState v) (p : PathL) : Bool :=
  st.dirs.contains p || st.files.contains p

/-- The metadata document of a container (empty when the file is absent),
as loaded by `Metadata.__init__` (metadata.py lines 22-25). -/
def getDoc {v : Type} (st : DMState v) (p : PathL) : MetaDoc v :=
  (plookup st.metaDocs p).getD []

/-- Store a container metadata document (`Metadata.save`). -/
def setDoc {v : Type} (st : DMState v) (p : PathL) (doc : MetaDoc v) : DMState v :=
  { st with metaDocs := (p, doc) :: st.metaDocs.filter (fun kv => kv.1 ≠ p) }

/-- Python `path.mkdir(...)`: record the directory. -/
def mkdirP {v : Type} (st : DMState v) (p : PathL) : DMState v :=
  if st.dirs.contains p then st else { st with dirs := st.dirs ++ [p] }

/-- Parameter names accepted by `Metadata.__init__` (metadata.py line 14):
`ds_root` and `path`. -/
def metadataInitParams : List String := ["ds_root", "path"]

/-- Keyword argument names passed to `md.Metadata(...)` by
`DataManager.save_meta` (datamanager.py line 690) and
`DataManager.load_meta` (line 412). -/
def metadataInitCallKwargs : List String := ["ds_root", "path", "dm_root"]

/-- Python call binding: the call raises `TypeError` unless every supplied
keyword argument names a parameter of the callee. -/
def kwargsBindOk (params kwargs : List String) : Bool :=
  kwargs.all (fun k => params.contains k)

/-- Model of the `ensure_paths` relative-path normalization (helpers.py line 50): the
POSIX key is "." for the container itself. -/
def relposixOf (path : Option PathL) : String :=
  match path with
  | none => "."
  | some [] => "."
  | some segs => String.intercalate "/" segs

/-- The `MetaCtx` a successfully constructed `Metadata` object would carry
for container `ds_root` and relative content path `path`. -/
def mkMetaCtx {v : Type} (env : DMEnv) (st : DMState v) (ds_root : PathL)
    (path : Option PathL) : MetaCtx :=
  let rel := path.getD []
  let absp := if rel = [] then ds_root else ds_root ++ rel
  { relposix := relposixOf path
    absExists := fsExists st absp
    absIsDir := st.dirs.contains absp
    dataset_id := env.datasetId ds_root
    dataset_version := env.datasetVersion ds_root
    extraction_time := env.now }

/-- Model of `DataManager.save_meta` (datamanager.py lines 673-713).  Its first
statement is `md.Metadata(ds_root=ds_path, path=path, dm_root=self.cfg.dm_root)`;
`Metadata.__init__` (metadata.py line 14) accepts only `ds_root` and
`path`, so the keyword binding fails and the call raises `TypeError`
before anything is read or written.  The other branch models what the
rest of the method would do if the construction bound, and is dead code
in this revision of the source. -/
def save_meta {v : Type} (cfg : DMCfg) (env : DMEnv) (st : DMState v)
    (ds_path : PathL) (path : Option PathL) (name : Option String)
    (extra : Dict (EVal v)) (do_not_save : Bool) : Option PyErr × DMState v :=
  if kwargsBindOk metadataInitParams metadataInitCallKwargs then
    if ¬ isInstalled st ds_path then (some PyErr.runtimeError, st)
    else
      let ctx := mkMetaCtx env st ds_path path
      let doc := getDoc st ds_path
      match metadataAdd doc ctx extra "overwrite" (some cfg.user_name)
          (some cfg.user_email) (some cfg.extractor_name)
          (some cfg.extractor_version) none name with
      | (some e, doc') => (some e, setDoc st ds_path doc')
      | (none, doc') => (none, setDoc st ds_path doc')
  else
    (some PyErr.typeError, st)

/-- Model of `dl.create(path, dataset=superds?, ...)`: install the dataset, create
its directory, and register it with the parent when one is given. -/
def dlCreate {v : Type} (st : DMState v) (path : PathL) (superds : Option PathL) :
    DMState v :=
  let st1 := { st with installed := st.installed ++ [path] }
  let st2 := mkdirP st1 path
  match superds with
  | none => st2
  | some sup => { st2 with registered := st2.registered ++ [(sup, path)] }

/-- Model of `dl.save(dataset=parent, path=[child], ...)` used to register an
already-installed subdataset: a no-op when the registration exists. -/
def dlRegister {v : Type} (st : DMState v) (parent child : PathL) : DMState v :=
  if st.registered.contains (parent, child) then st
  else { st with registered := st.registered ++ [(parent, child)] }

/-- Model of `DataManager._ensure_dataset` (datamanager.py lines 124-168): when the
dataset is installed, optionally register it with the parent and return;
otherwise create it (registered when `superds` is given) and stamp the
initial metadata record via `save_meta`. -/
def ensure_dataset {v : Type} (cfg : DMCfg) (env : DMEnv) (st : DMState v)
    (path : PathL) (name : Option String) (superds : Option PathL)
    (register_installed force do_not_save : Bool) : Option PyErr × DMState v :=
  if isInstalled st path then
    match superds with
    | some sup =>
      if register_installed then (none, dlRegister st sup path) else (none, st)
    | none => (none, st)
  else
    let st1 := dlCreate st path superds
    save_meta cfg env st1 path none name [] do_not_save

/-- Sequence two stateful steps, propagating a raised exception. -/
def seqE {v : Type} (r : Option PyErr × DMState v)
    (f : DMState v → Option PyErr × DMState v) : Option PyErr × DMState v :=
  match r with
  | (some e, st) => (some e, st)
  | (none, st) => f st

/-- One optional level of `init_tree`: ensure the dataset at `target`
(skipped when the level name was not supplied). -/
def initLevel {v : Type} (cfg : DMCfg) (env : DMEnv) (target : Option PathL)
    (name : Option String) (superds : Option PathL) (force : Bool)
    (st : DMState v) : Option PyErr × DMState v :=
  match target with
  | none => (none, st)
  | some p => ensure_dataset cfg env st p name superds false force force

/-- Package the outcome of the `init_tree` chain: a raised exception, or
the experiment path return value. -/
def finishInit {v : Type} (ep : Option PathL) (r : Option PyErr × DMState v) :
    DMState v × Except PyErr (Option PathL) :=
  match r with
  | (some e, st') => (st', Except.error e)
  | (none, st') => (st', Except.ok ep)

/-- Python `p / name if name else None`: the next level path when both the
parent and the level name are present (datamanager.py lines 302-305). -/
def childPath (parent : Option PathL) (nm : Option String) : Option PathL :=
  match parent, nm with
  | some pp, some c => some (pp ++ [c])
  | _, _ => none

/-- Model of `DataManager.init_tree` (datamanager.py lines 286-323).  Returns the
resulting state together with the raised exception or the returned
experiment path (`none` when no experiment argument was supplied). -/
def init_tree {v : Type} (cfg : DMCfg) (env : DMEnv) (st : DMState v)
    (project campaign experiment : Option String) (force : Bool) :
    DMState v × Except PyErr (Option PathL) :=
  let up := cfg.dm_root
  let pp := childPath (some up) project
  let cp := childPath pp campaign
  let ep := childPath cp experiment
  finishInit ep
    (seqE (ensure_dataset cfg env st up (some cfg.user_name) none false force force)
      (fun st1 =>
        seqE (initLevel cfg env pp project (some up) force st1)
          (fun st2 =>
            seqE (initLevel cfg env cp campaign pp force st2)
              (fun st3 => initLevel cfg env ep experiment cp force st3))))

/-- Python `src.name`: the last path segment. -/
def lastSeg (p : PathL) : String := (p.getLast?).getD ""

/-- The copy/move step of `install_into_tree` (datamanager.py lines
380-395), for an existing source. -/
def copyStep {v : Type} (st : DMState v) (src target : PathL) (move : Bool) :
    Option PyErr × DMState v :=
  if st.files.contains src then
    let st1 := { st with files := st.files ++ [target] }
    if move then (none, { st1 with files := st1.files.filter (fun q => q ≠ src) })
    else (none, st1)
  else if st.dirs.contains src then
    let st1 := mkdirP st target
    if move then (none, { st1 with dirs := st1.dirs.filter (fun q => q ≠ src) })
    else (none, st1)
  else
    (some PyErr.fileNotFoundError, st)

/-- Model of `DataManager.install_into_tree` (datamanager.py lines 325-401). -/
def install_into_tree {v : Type} (cfg : DMCfg) (env : DMEnv) (st : DMState v)
    (source : PathL) (project campaign : Option String)
    (experiment category : String) (dest_rel : Option PathL)
    (rename : Option String) (move : Bool) (metadata : Dict (EVal v))
    (overwrite : Bool) : DMState v × Except PyErr PathL :=
  if ¬ ALLOWED_CATEGORIES.contains category then
    (st, Except.error PyErr.valueError)
  else if ¬ fsExists st source then
    (st, Except.error PyErr.fileNotFoundError)
  else
    match init_tree cfg env st project campaign (some experiment) false with
    | (st1, Except.error e) => (st1, Except.error e)
    | (st1, Except.ok none) =>
      -- `init_tree` returned Python `None`; `ep / category` raises `TypeError`
      (st1, Except.error PyErr.typeError)
    | (st1, Except.ok (some ep)) =>
      let cat_path := ep ++ [category]
      let st2 := if fsExists st1 cat_path then st1 else mkdirP st1 cat_path
      let dest_path := match dest_rel with
        | some dr => cat_path ++ dr
        | none => cat_path
      let st3 := mkdirP st2 dest_path
      let final_target := dest_path ++ [(rename).getD (lastSeg source)]
      if fsExists st3 final_target ∧ ¬ overwrite then
        (st3, Except.error PyErr.fileExistsError)
      else
        match copyStep st3 source final_target move with
        | (some e, st4) => (st4, Except.error e)
        | (none, st4) =>
          match save_meta cfg env st4 ep (some (final_target.drop ep.length))
              none metadata false with
          | (some e, st5) => (st5, Except.error e)
          | (none, st5) => (st5, Except.ok final_target)

/-- Model of `DataManager.load_meta` (datamanager.py lines 403-414): `ensure_paths`
runs first and raises `RuntimeError` when `ds_path` is not an installed
dataset; otherwise the `md.Metadata(..., dm_root=...)` construction raises
`TypeError`.  The successful branch (dead code in this revision) would
return the requested record; only the `"meta"` mode result is modelled,
the claims settled here never reach it. -/
def load_meta {v : Type} (cfg : DMCfg) (env : DMEnv) (st : DMState v)
    (ds_path : PathL) (path : Option PathL) (mode : String) :
    Except PyErr (Dict (EVal v)) :=
  if ¬ isInstalled st ds_path then Except.error PyErr.runtimeError
  else if kwargsBindOk metadataInitParams metadataInitCallKwargs then
    if mode = "meta" then
      match metaGetMeta (getDoc st ds_path) (relposixOf path) with
      | some d => Except.ok d
      | none => Except.error PyErr.typeError
    else Except.ok []
  else Except.error PyErr.typeError

/-! ## datamanager.py: remote publishing -/

/-- The repository-name derivation of `DataManager.publish_gin_sibling`
(datamanager.py lines 519-526): `relparts` is `relpath.parts`, the path
of the target dataset relative to the managed root as computed by
`ensure_paths` (empty exactly when `relposix` is "." , i.e. the target is
the root).  For the root the base name (the `repo_name` argument, else
the configured GIN repo) is used unchanged; otherwise the parts are
joined with "-" and appended after a "-". -/
def publishRepoName (cfgGinRepo : String) (repo_name : Option String)
    (relparts : List String) : String :=
  let base := repo_name.getD cfgGinRepo
  if relparts ≠ [] then base ++ "-" ++ String.intercalate "-" relparts
  else base

/-- Modelled from the spec: "derive a remote repository name by appending
a slash-joined suffix of the relative path segments when the target is
not the root".  Stated for comparison with `publishRepoName`. -/
def specSlashRepoName (base : String) (relparts : List String) : String :=
  if relparts ≠ [] then base ++ "/" ++ String.intercalate "/" relparts
  else base

/-! ## helpers.py: `ssh_to_https`

Python strings are embedded as lists of characters. -/

/-- Python `s.startswith(pre)`. -/
def beginsWith : List Char → List Char → Bool
  | _, [] => true
  | [], _ :: _ => false
  | x :: xs, p :: ps => x = p && beginsWith xs ps

/-- Python `s.split(c, 1)`: the part before the first occurrence of `c`,
and the part after it (`none` when `c` does not occur). -/
def split1 (c : Char) : List Char → List Char × Option (List Char)
  | [] => ([], none)
  | x :: xs =>
    if x = c then ([], some xs)
    else
      let r := split1 c xs
      (x :: r.1, r.2)

/-- Python `s.endswith(suf)`. -/
def pyEndsWith (l suf : List Char) : Bool :=
  beginsWith l.reverse suf.reverse

/-- Model of `ssh_to_https` (helpers.py lines 148-156).  `u.split(":", 1)[1]`
raises `IndexError` when `u` has no colon; for a URL that does not start
with "git@" the string is returned unchanged. -/
def ssh_to_https (u : List Char) : Except PyErr (List Char) :=
  if beginsWith u "git@".toList then
    let afterAt := ((split1 '@' u).2).getD []
    let host := (split1 ':' afterAt).1
    match (split1 ':' u).2 with
    | none => Except.error PyErr.indexError
    | some path0 =>
      let path := if pyEndsWith path0 ".git".toList then
          path0.take (path0.length - 4)
        else path0
      Except.ok ("https://".toList ++ host ++ '/' :: path)
  else Except.ok u

/-! ## datamanager.py: `push_to_remotes` -/

/-- Oracle for the engine calls made by `push_to_remotes`: the sibling
query result (the name value of each entry, `none` when absent) and whether
a push to a given sibling name succeeds. -/
structure PushEnv where
  siblings : List (Option String)
  pushOk : Option String → Bool

/-- The engine calls `push_to_remotes` performs, in order. -/
inductive PushAct where
  | save (recursive : Bool) (message : Option String)
  | push (dest : Option String) (recursive : Bool) (data : String)
  | query
deriving DecidableEq, Repr

/-- Whether an engine call is a push attempt. -/
def isPushAct : PushAct → Bool
  | PushAct.push _ _ _ => true
  | _ => false

/-- Model of the sibling-name set comprehension (datamanager.py line 622):
the truthy sibling names. -/
def siblingNames (env : PushEnv) : List String :=
  (env.siblings.filterMap id).filter (fun s => s ≠ "")

/-- Errors surfaced by `push_to_remotes`: the fallback push re-raising its
own failure, or the `RuntimeError` "No publication target configured...". -/
inductive PushErr where
  | pushFailed
  | noPublicationTarget
deriving DecidableEq, Repr

/-- Model of `DataManager.push_to_remotes` (datamanager.py lines 600-626): save
(with the message when one is supplied), push with `data="anything"` to
the named sibling; on failure query the siblings once and retry exactly
once, to "gin" when present, else "origin", else raise.  Returns the
outcome and the ordered engine-call trace. -/
def push_to_remotes (env : PushEnv) (recursive : Bool)
    (message sibling_name : Option String) :
    Except PushErr Unit × List PushAct :=
  let saveAct := PushAct.save recursive message
  let firstPush := PushAct.push sibling_name recursive "anything"
  if env.pushOk sibling_name then
    (Except.ok (), [saveAct, firstPush])
  else
    let names := siblingNames env
    let fallback : Option String :=
      if names.contains "gin" then some "gin"
      else if names.contains "origin" then some "origin"
      else none
    match fallback with
    | none =>
      (Except.error PushErr.noPublicationTarget, [saveAct, firstPush, PushAct.query])
    | some f =>
      if env.pushOk (some f) then
        (Except.ok (), [saveAct, firstPush, PushAct.query,
          PushAct.push (some f) recursive "anything"])
      else
        (Except.error PushErr.pushFailed, [saveAct, firstPush, PushAct.query,
          PushAct.push (some f) recursive "anything"])

/-! ## helpers.py: `find_dataset_root_and_rel` -/

/-- An abstract filesystem: existence, directory and symlink tests. -/
structure FS where
  entryExists : PathL → Bool
  isDir : PathL → Bool
  isLink : PathL → Bool

/-- Python `p.parent` (the filesystem root is its own parent). -/
def parentOf (p : PathL) : PathL := p.dropLast

/-- The dataset test of helpers.py line 79, with Python operator
precedence: `(p.is_dir() and (p / ".datalad").exists()) or
(p / ".git").exists()`. -/
def isDatasetDir (fs : FS) (p : PathL) : Bool :=
  (fs.isDir p && fs.entryExists (p ++ [".datalad"])) || fs.entryExists (p ++ [".git"])

/-- The climbing loop of `find_dataset_root_and_rel` (helpers.py lines
77-89), starting at `p` and looking for the dataset root of `target`:
return the first dataset ancestor with `target` relative to it
(`target.relative_to(ds_root)`, i.e. dropping the root segments), stop
with `none` at the managed root, its parent, or the filesystem root.
The loop is embedded with an explicit step budget; each iteration strips
one trailing segment, so a budget above `p.length` is never exhausted
(`walkUpF_fuel_irrelevant`), and `walkUp` below supplies such a budget. -/
def walkUpF (fs : FS) (dmRoot target : PathL) : Nat → PathL → Option (PathL × PathL)
  | 0, _ => none
  | fuel + 1, p =>
    if isDatasetDir fs p then some (p, target.drop p.length)
    else if p = dmRoot ∨ p = parentOf dmRoot then none
    else if parentOf p = p then none
    else walkUpF fs dmRoot target fuel (parentOf p)

/-- The climbing loop with a sufficient budget. -/
def walkUp (fs : FS) (dmRoot target p : PathL) : Option (PathL × PathL) :=
  walkUpF fs dmRoot target (p.length + 1) p

/-- Model of `find_dataset_root_and_rel` (helpers.py lines 58-89): `none` models
the Python return `(None, None)`; otherwise the result is the dataset
root and the path of `path` relative to it (`[]` models `Path(".")`). -/
def find_dataset_root_and_rel (fs : FS) (path dm_root : PathL) :
    Option (PathL × PathL) :=
  if ¬ (fs.entryExists path || fs.isLink path) then none
  else
    let search_from := if fs.isDir path then path else parentOf path
    walkUp fs dm_root path search_from

/-- Modelled from the spec: the ancestors the walk tests, from the start
directory upward, ending at the managed root, its parent, or the
filesystem root (same step budget as `walkUpF`). -/
def specAncestorsF (dmRoot : PathL) : Nat → PathL → List PathL
  | 0, _ => []
  | fuel + 1, p =>
    p :: (if p = dmRoot ∨ p = parentOf dmRoot ∨ parentOf p = p then []
          else specAncestorsF dmRoot fuel (parentOf p))

/-- The tested ancestors, with a sufficient budget. -/
def specAncestors (dmRoot p : PathL) : List PathL :=
  specAncestorsF dmRoot (p.length + 1) p

/-- Modelled from the spec: take the first tested ancestor that is a
recognized container, with the path relative to it; `none` when there is
none. -/
def findSpec (fs : FS) (path dm_root : PathL) : Option (PathL × PathL) :=
  if ¬ (fs.entryExists path || fs.isLink path) then none
  else
    let search_from := if fs.isDir path then path else parentOf path
    ((specAncestors dm_root search_from).find? (isDatasetDir fs)).map
      (fun r => (r, path.drop r.length))

/-! ## Concrete fixtures used by witnesses and counterexamples -/

/-- A concrete configuration: managed root `/dm`, identity "alice". -/
def cfg0 : DMCfg :=
  { dm_root := ["dm"], user_name := "alice", user_email := "a@x.org",
    extractor_name := "datamanager_v1", extractor_version := "1.0" }

/-- A concrete engine oracle. -/
def env0 : DMEnv :=
  { datasetId := fun _ => "dsid", datasetVersion := fun _ => "v0",
    now := "2026-01-01T00:00:00+00:00" }

/-- The empty tree state. -/
def st_empty : DMState Unit :=
  { installed := [], registered := [], dirs := [], files := [], metaDocs := [] }

/-- A state in which only the managed root is installed. -/
def st_root : DMState Unit :=
  { installed := [["dm"]], registered := [], dirs := [["dm"]], files := [],
    metaDocs := [] }

/-- A state with the tree `/dm/P/C/E1` fully installed and a source file
`/tmp/sample.dat` present. -/
def st_tree : DMState Unit :=
  { installed := [["dm"], ["dm", "P"], ["dm", "P", "C"], ["dm", "P", "C", "E1"]]
    registered := [(["dm"], ["dm", "P"]), (["dm", "P"], ["dm", "P", "C"]),
      (["dm", "P", "C"], ["dm", "P", "C", "E1"])]
    dirs := [["dm"], ["dm", "P"], ["dm", "P", "C"], ["dm", "P", "C", "E1"],
      ["tmp"]]
    files := [["tmp", "sample.dat"]]
    metaDocs := [] }

/-- A concrete metadata context for the container itself. -/
def ctx0 : MetaCtx :=
  { relposix := ".", absExists := true, absIsDir := true, dataset_id := "dsid",
    dataset_version := "v0", extraction_time := "2026-01-01T00:00:00+00:00" }

/-- A push environment with no siblings where every push fails. -/
def pushEnvAllFail : PushEnv := { siblings := [], pushOk := fun _ => false }

/-- A push environment where every push succeeds. -/
def pushEnvAllOk : PushEnv := { siblings := [], pushOk := fun _ => true }

/-- A push environment with a "gin" sibling where only the push to "gin"
succeeds. -/
def pushEnvGinOnly : PushEnv :=
  { siblings := [some "gin", none, some ""], pushOk := fun n => n == some "gin" }

/-- A concrete filesystem: the managed root `/dm`, a dataset `/dm/b`
(it contains a `.git` entry), and a file `/dm/b/f.txt`. -/
def fs0 : FS :=
  { entryExists := fun p =>
      ([["dm"], ["dm", "b"], ["dm", "b", ".git"],
        ["dm", "b", "f.txt"]] : List PathL).contains p
    isDir := fun p => ([["dm"], ["dm", "b"]] : List PathL).contains p
    isLink := fun _ => false }

/-! ## Dictionary lemmas -/

theorem dlookup_append {α : Type} (a b : Dict α) (k : String) :
    dlookup (a ++ b) k = oor (dlookup a k) (dlookup b k) := by
  induction a with
  | nil => simp [dlookup, oor]
  | cons hd tl ih =>
    obtain ⟨k', v⟩ := hd
    by_cases h : k' = k <;> simp [dlookup, h, ih, oor]

theorem dlookup_upmap {α : Type} (d1 d2 : Dict α) (k : String) :
    dlookup (d1.map (fun kv => (kv.1, (dlookup d2 kv.1).getD kv.2))) k
      = (dlookup d1 k).map (fun v => (dlookup d2 k).getD v) := by
  induction d1 with
  | nil => simp [dlookup]
  | cons hd tl ih =>
    obtain ⟨k', v⟩ := hd
    by_cases h : k' = k
    · subst h; simp [dlookup]
    · simp [dlookup, h, ih]

theorem dlookup_upfilter {α : Type} (d1 d2 : Dict α) (k : String) :
    dlookup (d2.filter (fun kv => (dlookup d1 kv.1).isNone)) k
      = if (dlookup d1 k).isNone then dlookup d2 k else none := by
  induction d2 with
  | nil => simp [dlookup]
  | cons hd tl ih =>
    obtain ⟨k', v⟩ := hd
    by_cases h : k' = k
    · subst h
      by_cases h1 : (dlookup d1 k').isNone <;> simp [dlookup, h1, ih]
    · by_cases h1 : (dlookup d1 k').isNone <;> simp [dlookup, h, h1, ih]

/-- Lookup after a Python `update`: the value from `d2` wins, else the
one from `d1`. -/
theorem dlookup_dupdate {α : Type} (d1 d2 : Dict α) (k : String) :
    dlookup (dupdate d1 d2) k = oor (dlookup d2 k) (dlookup d1 k) := by
  unfold dupdate
  rw [dlookup_append, dlookup_upmap, dlookup_upfilter]
  cases h1 : dlookup d1 k <;> cases h2 : dlookup d2 k <;> simp [oor]

theorem dlookup_isSome_iff_mem_dkeys {α : Type} (d : Dict α) (k : String) :
    (dlookup d k).isSome = true ↔ k ∈ dkeys d := by
  induction d with
  | nil => simp [dlookup, dkeys]
  | cons hd tl ih =>
    obtain ⟨k', v⟩ := hd
    by_cases h : k' = k
    · subst h; simp [dlookup, dkeys]
    · simp only [dlookup, if_neg h, dkeys, List.map_cons, List.mem_cons]
      rw [show (tl.map Prod.fst) = dkeys tl from rfl, ← ih]
      constructor
      · intro hm; exact Or.inr hm
      · rintro (rfl | hm)
        · exact absurd rfl h
        · exact hm

theorem dlookup_dset_self {α : Type} (d : Dict α) (k : String) (v : α) :
    dlookup (dset d k v) k = some v := by
  rw [dset, dlookup_dupdate]
  simp [dlookup, oor]

/-! ## Lemmas about the extracted-metadata dictionary -/

/-- Lookup in the full `extracted` dictionary: the payload wins, the base
envelope fields fill in the rest. -/
theorem buildExtracted_lookup {v : Type} (ctx : MetaCtx)
    (node_type name : Option String) (P : Dict (EVal v)) (k : String) :
    dlookup (buildExtracted ctx node_type name P) k
      = oor (dlookup P k) (dlookup (extractedBase v ctx node_type name) k) := by
  cases P with
  | nil => simp [buildExtracted, dlookup, oor]
  | cons hd tl => simp [buildExtracted, List.isEmpty, dlookup_dupdate]

theorem extractedBase_identifier {v : Type} (ctx : MetaCtx)
    (node_type name : Option String) :
    dlookup (extractedBase v ctx node_type name) "identifier"
      = some (EVal.s ctx.relposix) := by
  by_cases h : truthy name <;>
    simp [extractedBase, h, dset, dupdate, dlookup]

theorem extractedBase_keys {v : Type} (ctx : MetaCtx)
    (node_type name : Option String) :
    dkeys (extractedBase v ctx node_type name)
      = if truthy name then ["@context", "@type", "@id", "identifier", "name"]
        else ["@context", "@type", "@id", "identifier"] := by
  by_cases h : truthy name <;>
    simp [extractedBase, h, dset, dupdate, dkeys, dlookup]

/-! ## The unconditional TypeError in `save_meta` -/

/-- The keyword binding of the `md.Metadata(...)` call in `save_meta` and
`load_meta` fails: `dm_root` is not a parameter of `Metadata.__init__`. -/
theorem metadata_call_binding_fails :
    kwargsBindOk metadataInitParams metadataInitCallKwargs = false := by decide

/-- Theorem: `save_meta` raises `TypeError` on every call, before any state change. -/
theorem save_meta_typeError {v : Type} (cfg : DMCfg) (env : DMEnv)
    (st : DMState v) (ds_path : PathL) (path : Option PathL)
    (name : Option String) (extra : Dict (EVal v)) (dns : Bool) :
    save_meta cfg env st ds_path path name extra dns
      = (some PyErr.typeError, st) := by
  unfold save_meta
  rw [metadata_call_binding_fails]
  simp

/-! ## State-preservation lemmas for the tree operations -/

theorem mkdirP_metaDocs {v : Type} (st : DMState v) (p : PathL) :
    (mkdirP st p).metaDocs = st.metaDocs := by
  unfold mkdirP; split <;> rfl

theorem dlCreate_metaDocs {v : Type} (st : DMState v) (p : PathL)
    (sup : Option PathL) : (dlCreate st p sup).metaDocs = st.metaDocs := by
  unfold dlCreate
  cases sup <;> simp [mkdirP_metaDocs]

theorem dlRegister_metaDocs {v : Type} (st : DMState v) (par c : PathL) :
    (dlRegister st par c).metaDocs = st.metaDocs := by
  unfold dlRegister; split <;> rfl

theorem copyStep_metaDocs {v : Type} (st : DMState v) (src target : PathL)
    (move : Bool) : (copyStep st src target move).2.metaDocs = st.metaDocs := by
  unfold copyStep
  split
  · split <;> rfl
  · split
    · split <;> simp [mkdirP_metaDocs]
    · rfl

theorem ensure_dataset_metaDocs {v : Type} (cfg : DMCfg) (env : DMEnv)
    (st : DMState v) (p : PathL) (n : Option String) (sup : Option PathL)
    (ri f dns : Bool) :
    (ensure_dataset cfg env st p n sup ri f dns).2.metaDocs = st.metaDocs := by
  unfold ensure_dataset
  by_cases h : isInstalled st p
  · cases sup with
    | none => simp [h]
    | some s => by_cases hri : ri <;> simp [h, hri, dlRegister_metaDocs]
  · simp [h, save_meta_typeError, dlCreate_metaDocs]

theorem ensure_dataset_ok_state {v : Type} (cfg : DMCfg) (env : DMEnv)
    (st : DMState v) (p : PathL) (n : Option String) (sup : Option PathL)
    (f dns : Bool) :
    (ensure_dataset cfg env st p n sup false f dns).1 = none →
    (ensure_dataset cfg env st p n sup false f dns).2 = st := by
  unfold ensure_dataset
  by_cases h : isInstalled st p
  · cases sup <;> simp [h]
  · simp [h, save_meta_typeError]

theorem initLevel_metaDocs {v : Type} (cfg : DMCfg) (env : DMEnv)
    (t : Option PathL) (n : Option String) (sup : Option PathL) (f : Bool)
    (st : DMState v) :
    (initLevel cfg env t n sup f st).2.metaDocs = st.metaDocs := by
  cases t <;> simp [initLevel, ensure_dataset_metaDocs]

theorem initLevel_ok_state {v : Type} (cfg : DMCfg) (env : DMEnv)
    (t : Option PathL) (n : Option String) (sup : Option PathL) (f : Bool)
    (st : DMState v) :
    (initLevel cfg env t n sup f st).1 = none →
    (initLevel cfg env t n sup f st).2 = st := by
  cases t with
  | none => simp [initLevel]
  | some p => exact ensure_dataset_ok_state cfg env st p n sup f f

theorem seqE_metaDocs {v : Type} (m : List (PathL × MetaDoc v))
    (r : Option PyErr × DMState v) (f : DMState v → Option PyErr × DMState v)
    (hr : r.2.metaDocs = m) (hf : ∀ s, (f s).2.metaDocs = s.metaDocs) :
    (seqE r f).2.metaDocs = m := by
  obtain ⟨e, s⟩ := r
  cases e with
  | none => simp [seqE]; rw [hf s]; exact hr
  | some e' => simpa [seqE] using hr

theorem seqE_ok_state {v : Type} (st0 : DMState v)
    (r : Option PyErr × DMState v) (f : DMState v → Option PyErr × DMState v)
    (hr : r.1 = none → r.2 = st0) (hf : ∀ s, (f s).1 = none → (f s).2 = s) :
    (seqE r f).1 = none → (seqE r f).2 = st0 := by
  obtain ⟨e, s⟩ := r
  cases e with
  | none =>
    intro h
    simp only [seqE] at h ⊢
    rw [hf s h]
    exact hr rfl
  | some e' => intro h; simp [seqE] at h

theorem finishInit_fst {v : Type} (ep : Option PathL)
    (r : Option PyErr × DMState v) : (finishInit ep r).1 = r.2 := by
  obtain ⟨e, s⟩ := r
  cases e <;> rfl

theorem finishInit_ok {v : Type} (ep : Option PathL)
    (r : Option PyErr × DMState v) (x : Option PathL) :
    (finishInit ep r).2 = Except.ok x → r.1 = none := by
  obtain ⟨e, s⟩ := r
  cases e with
  | none => intro _; rfl
  | some e' => intro h; simp [finishInit] at h

theorem init_tree_metaDocs {v : Type} (cfg : DMCfg) (env : DMEnv)
    (st : DMState v) (pr ca ex : Option String) (f : Bool) :
    (init_tree cfg env st pr ca ex f).1.metaDocs = st.metaDocs := by
  simp only [init_tree]
  rw [finishInit_fst]
  exact seqE_metaDocs st.metaDocs _ _
    (ensure_dataset_metaDocs _ _ _ _ _ _ _ _ _)
    (fun s => seqE_metaDocs s.metaDocs _ _
      (initLevel_metaDocs _ _ _ _ _ _ _)
      (fun s2 => seqE_metaDocs s2.metaDocs _ _
        (initLevel_metaDocs _ _ _ _ _ _ _)
        (fun s3 => initLevel_metaDocs _ _ _ _ _ _ _)))

theorem init_tree_ok_state {v : Type} (cfg : DMCfg) (env : DMEnv)
    (st : DMState v) (pr ca ex : Option String) (f : Bool) (x : Option PathL) :
    (init_tree cfg env st pr ca ex f).2 = Except.ok x →
    (init_tree cfg env st pr ca ex f).1 = st := by
  simp only [init_tree]
  intro h
  rw [finishInit_fst]
  refine seqE_ok_state st _ _ (ensure_dataset_ok_state _ _ _ _ _ _ _ _)
    (fun s => seqE_ok_state s _ _ (initLevel_ok_state _ _ _ _ _ _ _)
      (fun s2 => seqE_ok_state s2 _ _ (initLevel_ok_state _ _ _ _ _ _ _)
        (fun s3 => initLevel_ok_state _ _ _ _ _ _ _)))
    (finishInit_ok _ _ _ h)

theorem install_errors_no_meta {v : Type} (cfg : DMCfg) (env : DMEnv)
    (st : DMState v) (source : PathL) (project campaign : Option String)
    (experiment category : String) (dest_rel : Option PathL)
    (rename : Option String) (move : Bool) (metadata : Dict (EVal v))
    (ow : Bool) :
    (∃ e, (install_into_tree cfg env st source project campaign experiment
      category dest_rel rename move metadata ow).2 = Except.error e) ∧
    (install_into_tree cfg env st source project campaign experiment category
      dest_rel rename move metadata ow).1.metaDocs = st.metaDocs := by
  unfold install_into_tree
  by_cases hc : ALLOWED_CATEGORIES.contains category = true
  · by_cases hs : fsExists st source = true
    · rw [if_neg (not_not_intro hc), if_neg (not_not_intro hs)]
      cases hinit : init_tree cfg env st project campaign (some experiment) false with
      | mk st1 r =>
        have hm1 : st1.metaDocs = st.metaDocs := by
          have h := init_tree_metaDocs cfg env st project campaign (some experiment) false
          rw [hinit] at h
          exact h
        cases r with
        | error e => exact ⟨⟨e, rfl⟩, hm1⟩
        | ok epo =>
          cases epo with
          | none => exact ⟨⟨PyErr.typeError, rfl⟩, hm1⟩
          | some ep =>
            simp only [save_meta_typeError]
            split <;>
              (constructor
               · split
                 · exact ⟨PyErr.fileExistsError, rfl⟩
                 · split
                   · rename_i e st4 heq
                     exact ⟨e, rfl⟩
                   · rename_i st4 heq
                     exact ⟨PyErr.typeError, rfl⟩
               · split
                 · simp [mkdirP_metaDocs, hm1]
                 · split
                   · rename_i e st4 heq
                     have h2 := congrArg (fun q => (q.2 : DMState v).metaDocs) heq
                     simp only at h2
                     rw [copyStep_metaDocs] at h2
                     rw [show (st4, Except.error (ε := PyErr) e).1 = st4 from rfl, ← h2]
                     simp [mkdirP_metaDocs, hm1]
                   · rename_i st4 heq
                     have h2 := congrArg (fun q => (q.2 : DMState v).metaDocs) heq
                     simp only at h2
                     rw [copyStep_metaDocs] at h2
                     rw [show (st4, Except.error (ε := PyErr) PyErr.typeError).1 = st4 from rfl,
                       ← h2]
                     simp [mkdirP_metaDocs, hm1])
    · rw [if_neg (not_not_intro hc), if_pos hs]
      exact ⟨⟨PyErr.fileNotFoundError, rfl⟩, rfl⟩
  · rw [if_pos hc]
    exact ⟨⟨PyErr.valueError, rfl⟩, rfl⟩

/-! ## Claim theorems -/

/-- C1: on a fresh tree, `init_tree("roadmap", "2025", "E1")` raises
`TypeError` on the first call (after installing the root dataset:
`save_meta` passes the unsupported `dm_root` keyword to `Metadata`), and
the second call with identical arguments raises again while additionally
installing the project dataset, so the second call both raises and
changes the state — the idempotence the claim states does not hold on
this code. -/
theorem c1_init_tree_not_idempotent_code_bug :
    (init_tree cfg0 env0 st_empty (some "roadmap") (some "2025") (some "E1")
        false).2 = Except.error PyErr.typeError ∧
    (init_tree cfg0 env0 st_empty (some "roadmap") (some "2025") (some "E1")
        false).1.installed = [["dm"]] ∧
    (init_tree cfg0 env0
        (init_tree cfg0 env0 st_empty (some "roadmap") (some "2025")
          (some "E1") false).1
        (some "roadmap") (some "2025") (some "E1") false).2
      = Except.error PyErr.typeError ∧
    (init_tree cfg0 env0
        (init_tree cfg0 env0 st_empty (some "roadmap") (some "2025")
          (some "E1") false).1
        (some "roadmap") (some "2025") (some "E1") false).1.installed
      = [["dm"], ["dm", "roadmap"]] ∧
    (init_tree cfg0 env0
        (init_tree cfg0 env0 st_empty (some "roadmap") (some "2025")
          (some "E1") false).1
        (some "roadmap") (some "2025") (some "E1") false).1
      ≠ (init_tree cfg0 env0 st_empty (some "roadmap") (some "2025")
          (some "E1") false).1 := by
  refine ⟨by decide, by decide, by decide, by decide, by decide⟩

/-- C2: two merge-mode `Metadata.add` calls on the same key do not
produce the merged payload: the first call stores the record (the key is
new), the second call takes the merge branch, rebinds the stored record
to Python `None` via the return value of `dict.update`, and raises
`TypeError`; afterwards reading the payload fails as well. -/
theorem c2_merge_mode_raises_code_bug :
    (metadataAdd ([] : MetaDoc Unit) ctx0 [("a", EVal.s "1")] "merge"
        (some "alice") (some "a@x.org") (some "datamanager_v1") (some "1.0")
        none none).1 = none ∧
    (metadataAdd
        (metadataAdd ([] : MetaDoc Unit) ctx0 [("a", EVal.s "1")] "merge"
          (some "alice") (some "a@x.org") (some "datamanager_v1") (some "1.0")
          none none).2
        ctx0 [("b", EVal.s "2")] "merge" (some "alice") (some "a@x.org")
        (some "datamanager_v1") (some "1.0") none none).1
      = some PyErr.typeError ∧
    dlookup
        (metadataAdd
          (metadataAdd ([] : MetaDoc Unit) ctx0 [("a", EVal.s "1")] "merge"
            (some "alice") (some "a@x.org") (some "datamanager_v1")
            (some "1.0") none none).2
          ctx0 [("b", EVal.s "2")] "merge" (some "alice") (some "a@x.org")
          (some "datamanager_v1") (some "1.0") none none).2 "."
      = some none ∧
    metaGetMeta
        (metadataAdd
          (metadataAdd ([] : MetaDoc Unit) ctx0 [("a", EVal.s "1")] "merge"
            (some "alice") (some "a@x.org") (some "datamanager_v1")
            (some "1.0") none none).2
          ctx0 [("b", EVal.s "2")] "merge" (some "alice") (some "a@x.org")
          (some "datamanager_v1") (some "1.0") none none).2 "."
      = none := by
  refine ⟨by decide, by decide, by decide, by decide⟩

/-- C3 counterexample: after an overwrite `add` with empty payload and no
name, the payload-mode `get` result contains the key "@context", which is
neither a payload key nor one of `name`, `identifier`, `@id` — so the
result is not "exactly the payload plus name, identifier and @id". -/
theorem c3_payload_counterexample :
    (metaGetMeta
        (metadataAdd ([] : MetaDoc Unit) ctx0 [] "overwrite" (some "alice")
          (some "a@x.org") (some "datamanager_v1") (some "1.0") none none).2
        ".").map (fun d => dlookup d "@context")
      = some (some EVal.ctxObj) ∧
    dlookup ([] : Dict (EVal Unit)) "@context" = none ∧
    ("@context" ∈ ["name", "identifier", "@id"]) = False := by
  refine ⟨by decide, by decide, by simp⟩

/-- C3 amended: after `add(k, mode=overwrite, payload=P)` the payload-mode
`get` returns exactly `P` extended with the envelope-derived fields
"@context", "@type", "@id", "identifier" — plus "name" when a truthy name
was supplied — with the payload winning on key collisions and nothing
else; the "identifier" field holds the POSIX-normalized relative-path
key, which is "." for the container itself. -/
theorem c3_get_after_overwrite_amended {v : Type} [DecidableEq v]
    (meta : MetaDoc v) (ctx : MetaCtx) (P : Dict (EVal v))
    (un ue en ev nt name : Option String) (k : String) :
    (metadataAdd meta ctx P "overwrite" un ue en ev nt name).1 = none ∧
    metaGetMeta (metadataAdd meta ctx P "overwrite" un ue en ev nt name).2
        ctx.relposix
      = some (buildExtracted ctx nt name P) ∧
    dlookup (buildExtracted ctx nt name P) k
      = oor (dlookup P k) (dlookup (extractedBase v ctx nt name) k) ∧
    dlookup (extractedBase v ctx nt name) "identifier"
      = some (EVal.s ctx.relposix) ∧
    dkeys (extractedBase v ctx nt name)
      = (if truthy name then ["@context", "@type", "@id", "identifier", "name"]
         else ["@context", "@type", "@id", "identifier"]) ∧
    relposixOf none = "." ∧ relposixOf (some []) = "." := by
  have hover : metaAdd meta ctx.relposix
      (buildRecord ctx P un ue en ev nt name) "overwrite"
      = (none, dset meta ctx.relposix
          (some (buildRecord ctx P un ue en ev nt name))) := by
    simp [metaAdd]
  refine ⟨?_, ?_, buildExtracted_lookup ctx nt name P k,
    extractedBase_identifier ctx nt name, extractedBase_keys ctx nt name,
    rfl, rfl⟩
  · rw [metadataAdd, hover]
  · rw [metadataAdd, hover]
    unfold metaGetMeta
    rw [dlookup_dset_self]
    rfl

/-- C4: on a tree whose root/project/campaign/experiment datasets are all
installed, installing the existing file `/tmp/sample.dat` with category
"raw" and no `dest_rel` copies the file to `/dm/P/C/E1/raw/sample.dat`
but then raises `TypeError` in `save_meta` (unsupported `dm_root` keyword
for `Metadata`), so no metadata record is stored and the final path is
never returned — the successful behavior the claim describes is
unreachable on this code. -/
theorem c4_install_metadata_never_stored_code_bug :
    (install_into_tree cfg0 env0 st_tree ["tmp", "sample.dat"] (some "P")
        (some "C") "E1" "raw" none none false [] false).2
      = Except.error PyErr.typeError ∧
    (install_into_tree cfg0 env0 st_tree ["tmp", "sample.dat"] (some "P")
        (some "C") "E1" "raw" none none false [] false).1.files.contains
        ["dm", "P", "C", "E1", "raw", "sample.dat"] = true ∧
    (install_into_tree cfg0 env0 st_tree ["tmp", "sample.dat"] (some "P")
        (some "C") "E1" "raw" none none false [] false).1.metaDocs = [] ∧
    (install_into_tree cfg0 env0 st_tree ["tmp", "sample.dat"] (some "P")
        (some "C") "E1" "raw" none none false [] false).2
      ≠ Except.ok ["dm", "P", "C", "E1", "raw", "sample.dat"] := by
  refine ⟨by decide, by decide, by decide, by decide⟩

/-- C5: for every state and argument combination, a category outside the
fixed allowed set makes `install_into_tree` fail immediately with the
invalid-category error (`ValueError` in the source), with the state — and
hence the filesystem — completely unchanged. -/
theorem c5_invalid_category_rejected {v : Type} [DecidableEq v]
    (cfg : DMCfg) (env : DMEnv) (st : DMState v) (source : PathL)
    (project campaign : Option String) (experiment category : String)
    (dest_rel : Option PathL) (rename : Option String) (move : Bool)
    (metadata : Dict (EVal v)) (overwrite : Bool)
    (h : ALLOWED_CATEGORIES.contains category = false) :
    install_into_tree cfg env st source project campaign experiment category
        dest_rel rename move metadata overwrite
      = (st, Except.error PyErr.valueError) := by
  unfold install_into_tree
  rw [if_pos]
  rw [h]
  exact Bool.false_ne_true

/-- C5 witness: the category "bogus" is rejected without mutation. -/
theorem c5_invalid_category_rejected_witness :
    ALLOWED_CATEGORIES.contains "bogus" = false ∧
    install_into_tree cfg0 env0 st_tree ["tmp", "sample.dat"] (some "P")
        (some "C") "E1" "bogus" none none false [] false
      = (st_tree, Except.error PyErr.valueError) :=
  ⟨by decide,
    c5_invalid_category_rejected cfg0 env0 st_tree ["tmp", "sample.dat"]
      (some "P") (some "C") "E1" "bogus" none none false [] false (by decide)⟩

/-- C6 counterexample: for a two-level tree (root plus one subdataset
with relative part "sub"), the derived remote repository name is the
dash-joined "datamanager-sub", not the slash-joined name the claim
states. -/
theorem c6_repo_name_counterexample :
    publishRepoName "datamanager" none ["sub"] = "datamanager-sub" ∧
    specSlashRepoName "datamanager" ["sub"] = "datamanager/sub" ∧
    publishRepoName "datamanager" none ["sub"]
      ≠ specSlashRepoName "datamanager" ["sub"] := by
  refine ⟨by decide, by decide, by decide⟩

/-- C6 amended: for a target that is not the managed root,
`publish_gin_sibling` derives the remote repository name by appending to
the base repo name a dash, followed by the dash-joined relative path
segments; for the root itself the base name is used unchanged. -/
theorem c6_repo_name_amended (cfgRepo : String) (repo_name : Option String)
    (relparts : List String) :
    (relparts ≠ [] →
      publishRepoName cfgRepo repo_name relparts
        = (repo_name.getD cfgRepo) ++ "-" ++ String.intercalate "-" relparts) ∧
    (relparts = [] →
      publishRepoName cfgRepo repo_name relparts = repo_name.getD cfgRepo) := by
  constructor <;> intro h <;> simp [publishRepoName, h]

/-- C6 witness: the amended derivation at a subdataset and at the root. -/
theorem c6_repo_name_amended_witness :
    (["sub"] ≠ ([] : List String) ∧
      publishRepoName "datamanager" none ["sub"]
        = ((none : Option String).getD "datamanager") ++ "-"
          ++ String.intercalate "-" ["sub"]) ∧
    (([] : List String) = [] ∧
      publishRepoName "datamanager" none []
        = (none : Option String).getD "datamanager") :=
  ⟨⟨by decide, (c6_repo_name_amended "datamanager" none ["sub"]).1 (by decide)⟩,
   ⟨rfl, (c6_repo_name_amended "datamanager" none []).2 rfl⟩⟩

/-- C10 counterexample: when the root dataset is already installed,
`init_tree` with no level arguments completes without raising, and
`load_meta` on a non-installed dataset raises `RuntimeError` (from
`ensure_paths`), not `TypeError` — both refute the universally quantified
claim. -/
theorem c10_counterexample :
    init_tree cfg0 env0 st_root none none none false
      = (st_root, Except.ok none) ∧
    load_meta cfg0 env0 st_root ["x"] none "meta"
      = Except.error PyErr.runtimeError ∧
    PyErr.runtimeError ≠ PyErr.typeError := by
  refine ⟨by decide, by decide, by decide⟩

/-- C10 amended: `save_meta` raises `TypeError` on every call with the
state unchanged, and `load_meta` raises on every call — `TypeError` when
the dataset is installed, `RuntimeError` otherwise — because both pass
the keyword `dm_root`, which `Metadata.__init__` does not accept.
Consequently every `install_into_tree` call raises with no metadata
record stored, and `init_tree` never stores a metadata record: it either
raises or leaves the state entirely unchanged. -/
theorem c10_save_load_meta_amended {v : Type} [DecidableEq v] (cfg : DMCfg)
    (env : DMEnv) (st : DMState v) (ds_path : PathL) (path : Option PathL)
    (name : Option String) (extra : Dict (EVal v)) (dns : Bool) (mode : String)
    (source : PathL) (project campaign : Option String)
    (experiment category : String) (dest_rel : Option PathL)
    (rename : Option String) (move : Bool) (metadata : Dict (EVal v))
    (ow : Bool) (pr ca ex : Option String) (force : Bool) :
    save_meta cfg env st ds_path path name extra dns
      = (some PyErr.typeError, st) ∧
    load_meta cfg env st ds_path path mode
      = Except.error
          (if isInstalled st ds_path then PyErr.typeError
           else PyErr.runtimeError) ∧
    (∃ e, (install_into_tree cfg env st source project campaign experiment
      category dest_rel rename move metadata ow).2 = Except.error e) ∧
    (install_into_tree cfg env st source project campaign experiment category
      dest_rel rename move metadata ow).1.metaDocs = st.metaDocs ∧
    (init_tree cfg env st pr ca ex force).1.metaDocs = st.metaDocs ∧
    (∀ x, (init_tree cfg env st pr ca ex force).2 = Except.ok x →
      (init_tree cfg env st pr ca ex force).1 = st) := by
  refine ⟨save_meta_typeError cfg env st ds_path path name extra dns, ?_,
    (install_errors_no_meta cfg env st source project campaign experiment
      category dest_rel rename move metadata ow).1,
    (install_errors_no_meta cfg env st source project campaign experiment
      category dest_rel rename move metadata ow).2,
    init_tree_metaDocs cfg env st pr ca ex force,
    fun x => init_tree_ok_state cfg env st pr ca ex force x⟩
  · unfold load_meta
    by_cases h : isInstalled st ds_path = true
    · rw [if_neg (not_not_intro h), metadata_call_binding_fails]
      simp [h]
    · simp [h]

/-- C10 witness: the amended statement at a concrete state in which the
root dataset is installed and `init_tree` is called with no arguments, so
the success case of the final conjunct is exercised. -/
theorem c10_save_load_meta_amended_witness :
    save_meta cfg0 env0 st_root ["dm"] none none [] false
      = (some PyErr.typeError, st_root) ∧
    ((init_tree cfg0 env0 st_root none none none false).2 = Except.ok none ∧
      (init_tree cfg0 env0 st_root none none none false).1 = st_root) :=
  ⟨(c10_save_load_meta_amended cfg0 env0 st_root ["dm"] none none [] false
      "meta" ["tmp", "sample.dat"] (some "P") (some "C") "E1" "raw" none none
      false [] false none none none false).1,
   ⟨by decide,
    (c10_save_load_meta_amended cfg0 env0 st_root ["dm"] none none [] false
      "meta" ["tmp", "sample.dat"] (some "P") (some "C") "E1" "raw" none none
      false [] false none none none false).2.2.2.2.2 none (by decide)⟩⟩

/-! ## Lemmas for `ssh_to_https` -/

theorem beginsWith_append_self (a b : List Char) :
    beginsWith (a ++ b) a = true := by
  induction a with
  | nil => cases b <;> simp [beginsWith]
  | cons x xs ih => simp [beginsWith, ih]

theorem split1_sep (c : Char) (l r : List Char) (h : c ∉ l) :
    split1 c (l ++ c :: r) = (l, some r) := by
  induction l with
  | nil => simp [split1]
  | cons x xs ih =>
    have hx : ¬ (x = c) := fun he => h (by simp [he])
    have hxs : c ∉ xs := fun hm => h (List.mem_cons_of_mem _ hm)
    simp [split1, hx, ih hxs]

theorem take_len_append (l1 l2 : List Char) :
    (l1 ++ l2).take l1.length = l1 := by
  induction l1 with
  | nil => simp
  | cons x xs ih => simp [ih]

theorem pyEndsWith_append (p suf : List Char) :
    pyEndsWith (p ++ suf) suf = true := by
  unfold pyEndsWith
  rw [List.reverse_append]
  exact beginsWith_append_self suf.reverse p.reverse

/-- C7 counterexample: the SSH form "alice@h:p" (user not literally
"git") is returned unchanged by the rewrite, not rewritten to
"https://h/p" as the claim states for every `user@host:path`. -/
theorem c7_ssh_rewrite_counterexample :
    ssh_to_https "alice@h:p".toList = Except.ok "alice@h:p".toList ∧
    "alice@h:p".toList ≠ "https://h/p".toList := by
  refine ⟨by decide, by decide⟩

/-- C7 amended: the rewrite applies only to URLs whose user part is
literally "git": for every host (without a colon) and path,
`git@host:path` maps to `https://host/path` and `git@host:path.git` maps
to `https://host/path` with the ".git" suffix stripped, while every
string that does not start with "git@" — which includes every URL
beginning with "http" — is returned unchanged. -/
theorem c7_ssh_rewrite_amended (host path : List Char) (hc : ':' ∉ host) :
    (pyEndsWith path ".git".toList = false →
      ssh_to_https ("git@".toList ++ (host ++ ':' :: path))
        = Except.ok ("https://".toList ++ host ++ '/' :: path)) ∧
    ssh_to_https ("git@".toList ++ (host ++ ':' :: (path ++ ".git".toList)))
      = Except.ok ("https://".toList ++ host ++ '/' :: path) ∧
    (∀ u : List Char, beginsWith u "git@".toList = false →
      ssh_to_https u = Except.ok u) ∧
    (∀ u : List Char, beginsWith u "http".toList = true →
      beginsWith u "git@".toList = false) := by
  have hmem : ∀ q : List Char, ':' ∉ ("git@".toList ++ host) := by
    intro _ hm
    rcases List.mem_append.mp hm with h1 | h2
    · exact absurd h1 (by decide)
    · exact hc h2
  have hsplitA : ∀ rest : List Char,
      split1 '@' ("git@".toList ++ rest) = ("git".toList, some rest) := by
    intro rest
    rw [show "git@".toList ++ rest = "git".toList ++ '@' :: rest from rfl]
    exact split1_sep '@' "git".toList rest (by decide)
  have hsplitU : ∀ q : List Char,
      split1 ':' ("git@".toList ++ (host ++ ':' :: q))
        = ("git@".toList ++ host, some q) := by
    intro q
    rw [show "git@".toList ++ (host ++ ':' :: q)
        = ("git@".toList ++ host) ++ ':' :: q from by rw [List.append_assoc]]
    exact split1_sep ':' ("git@".toList ++ host) q (hmem q)
  refine ⟨?_, ?_, ?_, ?_⟩
  · intro hend
    unfold ssh_to_https
    rw [if_pos (beginsWith_append_self "git@".toList (host ++ ':' :: path))]
    rw [hsplitA (host ++ ':' :: path)]
    rw [hsplitU path]
    simp only [Option.getD_some]
    rw [split1_sep ':' host path hc]
    rw [hend]
    simp
  · unfold ssh_to_https
    rw [if_pos (beginsWith_append_self "git@".toList
      (host ++ ':' :: (path ++ ".git".toList)))]
    rw [hsplitA (host ++ ':' :: (path ++ ".git".toList))]
    rw [hsplitU (path ++ ".git".toList)]
    simp only [Option.getD_some]
    rw [split1_sep ':' host (path ++ ".git".toList) hc]
    rw [pyEndsWith_append path ".git".toList]
    simp only [if_true]
    rw [show (path ++ ".git".toList).length - 4 = path.length from by
      simp [List.length_append]]
    rw [take_len_append path ".git".toList]
  · intro u hu
    unfold ssh_to_https
    have hneg : ¬ (beginsWith u "git@".toList = true) := by
      rw [hu]
      exact Bool.false_ne_true
    rw [if_neg hneg]
  · intro u hu
    cases u with
    | nil => simp [beginsWith] at hu
    | cons x xs =>
      have hx : x = 'h' := by
        by_cases h : x = 'h'
        · exact h
        · rw [show ("http".toList : List Char)
            = 'h' :: "ttp".toList from rfl] at hu
          simp [beginsWith, h] at hu
      subst hx
      rw [show ("git@".toList : List Char) = 'g' :: "it@".toList from rfl]
      simp [beginsWith]

/-- C7 witness: the amended rewrite at host "h" and path "o/r", both with
and without the ".git" suffix, an unchanged non-git SSH URL, and an
unchanged HTTPS URL. -/
theorem c7_ssh_rewrite_amended_witness :
    (':' ∉ "h".toList) ∧
    (pyEndsWith "o/r".toList ".git".toList = false ∧
      ssh_to_https ("git@".toList ++ ("h".toList ++ ':' :: "o/r".toList))
        = Except.ok ("https://".toList ++ "h".toList ++ '/' :: "o/r".toList)) ∧
    ssh_to_https
        ("git@".toList ++ ("h".toList ++ ':' :: ("o/r".toList ++ ".git".toList)))
      = Except.ok ("https://".toList ++ "h".toList ++ '/' :: "o/r".toList) ∧
    (beginsWith "alice@h:q".toList "git@".toList = false ∧
      ssh_to_https "alice@h:q".toList = Except.ok "alice@h:q".toList) ∧
    (beginsWith "https://x".toList "http".toList = true ∧
      beginsWith "https://x".toList "git@".toList = false ∧
      ssh_to_https "https://x".toList = Except.ok "https://x".toList) :=
  ⟨by decide,
   ⟨by decide,
    (c7_ssh_rewrite_amended "h".toList "o/r".toList (by decide)).1 (by decide)⟩,
   (c7_ssh_rewrite_amended "h".toList "o/r".toList (by decide)).2.1,
   ⟨by decide,
    (c7_ssh_rewrite_amended "h".toList "o/r".toList (by decide)).2.2.1
      "alice@h:q".toList (by decide)⟩,
   ⟨by decide,
    (c7_ssh_rewrite_amended "h".toList "o/r".toList (by decide)).2.2.2
      "https://x".toList (by decide),
    (c7_ssh_rewrite_amended "h".toList "o/r".toList (by decide)).2.2.1
      "https://x".toList (by decide)⟩⟩

/-- C8: `push_to_remotes` first saves (with the supplied message), then
pushes with full content-transfer to the named sibling; when that push
fails it queries the siblings once and makes exactly one fallback
attempt — to "gin" when a sibling of that name exists, else to "origin",
and otherwise fails with the no-publication-target error with no second
push; in every case at most two pushes are attempted. -/
theorem c8_push_fallback (env : PushEnv) (recursive : Bool)
    (message sibling_name : Option String) :
    ((push_to_remotes env recursive message sibling_name).2.head?
      = some (PushAct.save recursive message)) ∧
    ((push_to_remotes env recursive message sibling_name).2.get? 1
      = some (PushAct.push sibling_name recursive "anything")) ∧
    (env.pushOk sibling_name = true →
      push_to_remotes env recursive message sibling_name
        = (Except.ok (), [PushAct.save recursive message,
            PushAct.push sibling_name recursive "anything"])) ∧
    (env.pushOk sibling_name = false →
      (siblingNames env).contains "gin" = true →
      (push_to_remotes env recursive message sibling_name).2
        = [PushAct.save recursive message,
           PushAct.push sibling_name recursive "anything", PushAct.query,
           PushAct.push (some "gin") recursive "anything"] ∧
      ((push_to_remotes env recursive message sibling_name).1 = Except.ok ()
        ↔ env.pushOk (some "gin") = true)) ∧
    (env.pushOk sibling_name = false →
      (siblingNames env).contains "gin" = false →
      (siblingNames env).contains "origin" = true →
      (push_to_remotes env recursive message sibling_name).2
        = [PushAct.save recursive message,
           PushAct.push sibling_name recursive "anything", PushAct.query,
           PushAct.push (some "origin") recursive "anything"] ∧
      ((push_to_remotes env recursive message sibling_name).1 = Except.ok ()
        ↔ env.pushOk (some "origin") = true)) ∧
    (env.pushOk sibling_name = false →
      (siblingNames env).contains "gin" = false →
      (siblingNames env).contains "origin" = false →
      push_to_remotes env recursive message sibling_name
        = (Except.error PushErr.noPublicationTarget,
           [PushAct.save recursive message,
            PushAct.push sibling_name recursive "anything", PushAct.query])) ∧
    ((push_to_remotes env recursive message sibling_name).2.countP isPushAct
      ≤ 2) := by
  cases h1 : env.pushOk sibling_name with
  | true => simp [push_to_remotes, h1, isPushAct, List.countP, List.countP.go]
  | false =>
    cases h2 : (siblingNames env).contains "gin" with
    | true =>
      have h2' : "gin" ∈ siblingNames env := by simpa using h2
      cases h3 : env.pushOk (some "gin") with
      | true =>
        simp [push_to_remotes, h1, h2, h2', h3, isPushAct, List.countP,
          List.countP.go]
      | false =>
        simp [push_to_remotes, h1, h2, h2', h3, isPushAct, List.countP,
          List.countP.go]
    | false =>
      have h2' : "gin" ∉ siblingNames env := by simpa using h2
      cases h4 : (siblingNames env).contains "origin" with
      | true =>
        have h4' : "origin" ∈ siblingNames env := by simpa using h4
        cases h5 : env.pushOk (some "origin") with
        | true =>
          simp [push_to_remotes, h1, h2, h2', h4, h4', h5, isPushAct,
            List.countP, List.countP.go]
        | false =>
          simp [push_to_remotes, h1, h2, h2', h4, h4', h5, isPushAct,
            List.countP, List.countP.go]
      | false =>
        have h4' : "origin" ∉ siblingNames env := by simpa using h4
        simp [push_to_remotes, h1, h2, h2', h4, h4', isPushAct, List.countP,
          List.countP.go]

/-- C8 witness: the behavior at three concrete environments — a
successful first push, a failed push with a successful "gin" fallback,
and a failed push with no fallback target. -/
theorem c8_push_fallback_witness :
    (pushEnvAllOk.pushOk (some "s") = true ∧
      push_to_remotes pushEnvAllOk true (some "m") (some "s")
        = (Except.ok (), [PushAct.save true (some "m"),
            PushAct.push (some "s") true "anything"])) ∧
    (pushEnvGinOnly.pushOk (some "s") = false ∧
      (siblingNames pushEnvGinOnly).contains "gin" = true ∧
      (push_to_remotes pushEnvGinOnly true none (some "s")).2
        = [PushAct.save true none, PushAct.push (some "s") true "anything",
           PushAct.query, PushAct.push (some "gin") true "anything"] ∧
      (push_to_remotes pushEnvGinOnly true none (some "s")).1
        = Except.ok ()) ∧
    (pushEnvAllFail.pushOk none = false ∧
      push_to_remotes pushEnvAllFail false none none
        = (Except.error PushErr.noPublicationTarget,
           [PushAct.save false none, PushAct.push none false "anything",
            PushAct.query])) :=
  ⟨⟨by decide,
    (c8_push_fallback pushEnvAllOk true (some "m") (some "s")).2.2.1
      (by decide)⟩,
   ⟨by decide, by decide,
    ((c8_push_fallback pushEnvGinOnly true none (some "s")).2.2.2.1
      (by decide) (by decide)).1,
    (((c8_push_fallback pushEnvGinOnly true none (some "s")).2.2.2.1
      (by decide) (by decide)).2).mpr (by decide)⟩,
   ⟨by decide,
    (c8_push_fallback pushEnvAllFail false none none).2.2.2.2.2.1
      (by decide) (by decide) (by decide)⟩⟩

/-! ## Lemmas for `find_dataset_root_and_rel` -/

theorem walkUpF_eq_find (fs : FS) (dmRoot target : PathL) :
    ∀ (fuel : Nat) (p : PathL), p.length < fuel →
      walkUpF fs dmRoot target fuel p
        = ((specAncestorsF dmRoot fuel p).find? (isDatasetDir fs)).map
            (fun r => (r, target.drop r.length)) := by
  intro fuel
  induction fuel with
  | zero => intro p hp; exact absurd hp (Nat.not_lt_zero _)
  | succ n ih =>
    intro p hp
    cases h1 : isDatasetDir fs p with
    | true => simp [walkUpF, specAncestorsF, h1]
    | false =>
      by_cases h2 : p = dmRoot ∨ p = parentOf dmRoot
      · have hcond : p = dmRoot ∨ p = parentOf dmRoot ∨ parentOf p = p := by
          tauto
        simp [walkUpF, specAncestorsF, h1, h2, hcond]
      · by_cases h3 : parentOf p = p
        · have hcond : p = dmRoot ∨ p = parentOf dmRoot ∨ parentOf p = p := by
            tauto
          simp [walkUpF, specAncestorsF, h1, h2, h3, hcond]
        · have hcond : ¬ (p = dmRoot ∨ p = parentOf dmRoot ∨ parentOf p = p) := by
            tauto
          have hp0 : p ≠ [] := fun he => h3 (by rw [he]; rfl)
          have hlen : (parentOf p).length < n := by
            have h4 : p.length ≠ 0 := fun h0 => hp0 (List.length_eq_zero.mp h0)
            simp only [parentOf, List.length_dropLast]
            omega
          simp [walkUpF, specAncestorsF, h1, h2, h3, hcond, ih _ hlen]

/-- C9: `find_dataset_root_and_rel` equals its specification — for a
non-existing path it returns no result at once; otherwise it starts from
the path itself when it is a directory (else from its parent), walks
upward, succeeds at the first tested ancestor that is a recognized
container with the path taken relative to that ancestor, and fails after
the walk ends at the managed root, its parent, or the filesystem root;
when the path itself is a container root the relative part is the
identity `[]` (Python `Path(".")`). -/
theorem c9_find_container (fs : FS) (path dm_root : PathL) :
    find_dataset_root_and_rel fs path dm_root = findSpec fs path dm_root ∧
    (fs.entryExists path = false → fs.isLink path = false →
      find_dataset_root_and_rel fs path dm_root = none) ∧
    (fs.entryExists path = true → fs.isDir path = true →
      isDatasetDir fs path = true →
      find_dataset_root_and_rel fs path dm_root = some (path, [])) := by
  refine ⟨?_, ?_, ?_⟩
  · unfold find_dataset_root_and_rel findSpec walkUp specAncestors
    by_cases h : (fs.entryExists path || fs.isLink path) = true
    · rw [if_neg (not_not_intro h), if_neg (not_not_intro h)]
      exact walkUpF_eq_find fs dm_root path _ _ (Nat.lt_succ_self _)
    · rw [if_pos h, if_pos h]
  · intro h1 h2
    unfold find_dataset_root_and_rel
    rw [if_pos]
    rw [h1, h2]
    simp
  · intro h1 h2 h3
    unfold find_dataset_root_and_rel walkUp
    rw [if_neg (not_not_intro (by rw [h1]; rfl)), if_pos h2]
    simp [walkUpF, h3, List.drop_length]

/-- C9 witness: on a concrete filesystem — a missing path yields no
result, a file inside the dataset `/dm/b` resolves to that dataset with
relative path `f.txt`, and the dataset root itself resolves with the
identity relative path. -/
theorem c9_find_container_witness :
    (fs0.entryExists ["x"] = false ∧ fs0.isLink ["x"] = false ∧
      find_dataset_root_and_rel fs0 ["x"] ["dm"] = none) ∧
    (fs0.entryExists ["dm", "b"] = true ∧ fs0.isDir ["dm", "b"] = true ∧
      isDatasetDir fs0 ["dm", "b"] = true ∧
      find_dataset_root_and_rel fs0 ["dm", "b"] ["dm"]
        = some (["dm", "b"], [])) ∧
    find_dataset_root_and_rel fs0 ["dm", "b", "f.txt"] ["dm"]
      = some (["dm", "b"], ["f.txt"]) :=
  ⟨⟨by decide, by decide,
    (c9_find_container fs0 ["x"] ["dm"]).2.1 (by decide) (by decide)⟩,
   ⟨by decide, by decide, by decide,
    (c9_find_container fs0 ["dm", "b"] ["dm"]).2.2 (by decide) (by decide)
      (by decide)⟩,
   by decide⟩

end DM
